import Mathlib

/-!
# Forwardgram queueing / dispatch core — shallow embedding

This file embeds, in Lean, the queueing, debouncing and dispatch-scheduling
core of the `forwardgram` application (files `app/forwardgram/app.py`,
`app/forwardgram/queue_manager.py`, `app/forwardgram/scheduler_manager.py`)
and proves or refutes the specification claims about it.

Modelling conventions:
* Python dicts used as keyed maps (`sending_status`, `sending_timers`,
  the local `sending_timer` accumulator of `_send_messages_from_queues`)
  are embedded as association lists `List (String × α)` with Python's
  insertion-order update semantics (`setKey` replaces in place or appends).
* The queue dict `{"qid", "config_name", "channel_id", "min_id", "max_id",
  "open", "messages"}` is the structure `Queue` below.  The Python key
  `"open"` is named `isOpen` because `open` is a Lean keyword.
* External collaborators (Telethon history fetch, the message transformer,
  the delivery transport, `random.randrange`) are parameters (oracles) of
  the embedded functions; the embedding never interprets them.
* Timer objects (`aio_timers.Timer`) are modelled by their presence in the
  bookkeeping maps that the code maintains; arming/cancelling a timer is
  inserting/removing its map entry.
-/

namespace Forwardgram

/-! ## Association-list maps (Python `dict` embedding) -/

/-- `m.get(k)` on a Python dict: first binding for `k`, if any. -/
def lookupKey {α : Type} (m : List (String × α)) (k : String) : Option α :=
  match m with
  | [] => none
  | (k', v) :: rest => if k' = k then some v else lookupKey rest k

/-- `m[k] = v` on a Python dict: replace the binding for `k` in place, or
append a fresh binding at the end (Python insertion order). -/
def setKey {α : Type} (m : List (String × α)) (k : String) (v : α) :
    List (String × α) :=
  match m with
  | [] => [(k, v)]
  | (k', v') :: rest =>
      if k' = k then (k, v) :: rest else (k', v') :: setKey rest k v

theorem lookupKey_setKey_self {α : Type} (m : List (String × α)) (k : String)
    (v : α) : lookupKey (setKey m k v) k = some v := by
  induction m with
  | nil => simp [setKey, lookupKey]
  | cons p rest ih =>
      obtain ⟨k', v'⟩ := p
      by_cases h : k' = k <;> simp [setKey, lookupKey, h, ih]

theorem lookupKey_setKey_other {α : Type} (m : List (String × α))
    (k k' : String) (v : α) (h : k ≠ k') :
    lookupKey (setKey m k v) k' = lookupKey m k' := by
  induction m with
  | nil => simp [setKey, lookupKey, h]
  | cons p rest ih =>
      obtain ⟨k₀, v₀⟩ := p
      by_cases h₀ : k₀ = k
      · subst h₀
        simp [setKey, lookupKey, h, Ne.symm h]
      · simp [setKey, lookupKey, h₀, ih]

/-! ## Data model -/

/-- The fields of a Telethon `Message` that the core reads:
`message.id`, `message.grouped_id`, `message.message` (the text, `""` when
absent) and `message.media` (an opaque reference, `none` when absent). -/
structure Msg where
  id : Nat
  grouped_id : Option Nat
  text : String
  media : Option Nat
deriving DecidableEq, Repr

/-- A `queue["messages"]` entry.  The Python list holds three shapes of
value: a Telethon `Message` object (appended by `_add_messages_to_queue`
for non-grouped messages), a plain `str` (the caption text appended after
an album), and an album `dict {"ids", "grouped_id", "files"}`. -/
inductive QItem where
  | msg (m : Msg)
  | text (s : String)
  | album (grouped_id : Nat) (ids : List Nat) (files : List (Option Nat))
deriving DecidableEq, Repr

/-- The queue dict of `queue_manager.py` (`"open"` is named `isOpen`). -/
structure Queue where
  qid : Nat
  config_name : String
  channel_id : String
  min_id : Nat
  max_id : Nat
  isOpen : Bool
  messages : List QItem
deriving DecidableEq, Repr

/-! ## C1 — `init_channel_queue` id-range tracking
(`queue_manager.py` lines 106–119) -/

/-- The fresh queue dict created by `get_channel_queue` when no open queue
exists for `(channel_id, config_name)` (`queue_manager.py` lines 91–99). -/
def newChannelQueue (channel_id config_name : String) : Queue :=
  { qid := 0, config_name := config_name, channel_id := channel_id,
    min_id := 0, max_id := 0, isOpen := true, messages := [] }

/-- The range mutation of `init_channel_queue` (lines 111–113):
`min_id` is assigned only while it is `0`, `max_id` unconditionally. -/
def init_channel_queue_range (q : Queue) (msgId : Nat) : Queue :=
  { q with
    min_id := if q.min_id = 0 then msgId else q.min_id,
    max_id := msgId }

theorem init_range_min_frozen (l : List Nat) (q : Queue) (h : q.min_id ≠ 0) :
    (l.foldl init_channel_queue_range q).min_id = q.min_id := by
  induction l generalizing q with
  | nil => rfl
  | cons a l ih =>
      have hq : (init_channel_queue_range q a).min_id = q.min_id := by
        simp [init_channel_queue_range, if_neg h]
      rw [List.foldl_cons, ih _ (by rw [hq]; exact h), hq]

theorem init_range_max_last (l : List Nat) (q : Queue) :
    (l.foldl init_channel_queue_range q).max_id = l.getLastD q.max_id := by
  induction l generalizing q with
  | nil => rfl
  | cons a l ih =>
      rw [List.foldl_cons, ih, List.getLastD_cons]
      rfl

/-- C1.  For every sequence of arrival events recorded via
`init_channel_queue` for one `(channel_id, config_name)` key with no
intervening close — i.e. a fold of the `init_channel_queue` range update
over the freshly created queue — the queue's `min_id` equals the id of the
first event (it is assigned only while `min_id == 0`) and `max_id` equals
the id of the most recent event.  The hypothesis `firstId ≠ 0` encodes
that Telegram message ids are positive (`0` is the sentinel for "unset"). -/
theorem init_channel_queue_range_bounds (c cfg : String) (firstId : Nat)
    (rest : List Nat) (h : firstId ≠ 0) :
    (rest.foldl init_channel_queue_range
        (init_channel_queue_range (newChannelQueue c cfg) firstId)).min_id
      = firstId ∧
    (rest.foldl init_channel_queue_range
        (init_channel_queue_range (newChannelQueue c cfg) firstId)).max_id
      = (firstId :: rest).getLast (List.cons_ne_nil firstId rest) := by
  refine ⟨?_, ?_⟩
  · rw [init_range_min_frozen]
    · simp [init_channel_queue_range, newChannelQueue]
    · simp [init_channel_queue_range, newChannelQueue, h]
  · rw [init_range_max_last]
    simp [init_channel_queue_range, List.getLast_eq_getLastD]

theorem init_channel_queue_range_bounds_witness :
    (3 : Nat) ≠ 0 ∧
    (([5, 4].foldl init_channel_queue_range
        (init_channel_queue_range (newChannelQueue "c" "cfg") 3)).min_id
      = 3 ∧
     ([5, 4].foldl init_channel_queue_range
        (init_channel_queue_range (newChannelQueue "c" "cfg") 3)).max_id
      = ([3, 5, 4].getLast (List.cons_ne_nil 3 [5, 4]) : Nat)) :=
  ⟨by decide, init_channel_queue_range_bounds "c" "cfg" 3 [5, 4] (by decide)⟩

/-! ## C7 — persistence round-trip
(`queue_manager.py` lines 35–59 and 240–248) -/

/-- The `data` payload written for a queue row.
`_prepare_queue_data_for_db` copies the queue dict and deletes the keys
`qid`, `config_name` and `messages`, leaving exactly
`{channel_id, min_id, max_id, open}`. -/
structure QueueDbData where
  channel_id : String
  min_id : Nat
  max_id : Nat
  isOpen : Bool
deriving DecidableEq, Repr

/-- A row of the queue table: columns `qid`, `config_name`, `channel_id`
plus the serialized `data` payload. -/
structure DbRow where
  qid : Nat
  config_name : String
  channel_id : String
  data : QueueDbData
deriving DecidableEq, Repr

/-- `_prepare_queue_data_for_db` (lines 240–248). -/
def prepare_queue_data_for_db (q : Queue) : QueueDbData :=
  { channel_id := q.channel_id, min_id := q.min_id, max_id := q.max_id,
    isOpen := q.isOpen }

/-- The queue dict built from a loaded row by `load_initial_queues`
(lines 44–52): `min_id`/`max_id`/`open` from the payload, `messages`
always `[]`. -/
def load_queue_row (r : DbRow) : Queue :=
  { qid := r.qid, config_name := r.config_name, channel_id := r.channel_id,
    min_id := r.data.min_id, max_id := r.data.max_id,
    isOpen := r.data.isOpen, messages := [] }

/-- C7.  Persisting a queue row and reloading it round-trips the queue
state: the payload preserves `min_id`, `max_id` and `open` exactly, the
`messages` list is never written (the payload of a queue is independent of
its `messages`), and the reloaded queue has identical
`min_id`/`max_id`/`open` and an empty `messages` sequence. -/
theorem queue_row_round_trip (q : Queue) (ms : List QItem) :
    load_queue_row
        { qid := q.qid, config_name := q.config_name,
          channel_id := q.channel_id,
          data := prepare_queue_data_for_db q }
      = { q with messages := [] } ∧
    prepare_queue_data_for_db { q with messages := ms }
      = prepare_queue_data_for_db q := by
  constructor <;> rfl

/-! ## C9 — `close_channel_queue`
(`queue_manager.py` lines 128–137, 210–219)

`QueueManager` timer bookkeeping: `close_queue_timers` maps a config name
to the per-channel dict of armed idle-close timers (modelled by the list of
channel ids holding an armed timer); `update_queue_timers` maps a queue id
to its pending debounced-write timer (modelled by the list of qids with a
pending write; `_update_queue_in_db` cancels any existing timer for the
qid and arms a fresh one, i.e. it ensures the qid is pending). -/

structure QMState where
  close_queue_timers : List (String × List String)
  update_queue_timers : List Nat
deriving DecidableEq, Repr

/-- `_update_queue_in_db` at the timer-map level: ensure a pending
debounced write for this qid (cancel-and-rearm collapses to presence). -/
def schedule_update_queue (l : List Nat) (qid : Nat) : List Nat :=
  if qid ∈ l then l else l ++ [qid]

/-- `del close_queue_timers[cfg][chan]` guarded by key presence
(`queue_manager.py` lines 134–135): drop the channel's armed timer from
the config's dict, a no-op when absent. -/
def removeChannelTimer (m : List (String × List String)) (cfg chan : String) :
    List (String × List String) :=
  match m with
  | [] => []
  | (k, chans) :: rest =>
      if k = cfg then (k, chans.filter (fun c => c ≠ chan)) :: rest
      else (k, chans) :: removeChannelTimer rest cfg chan

/-- `close_channel_queue` (lines 128–137): set `open = False`, schedule the
debounced persistence write, drop the queue's idle-close timer entry. -/
def close_channel_queue (q : Queue) (s : QMState) : Queue × QMState :=
  let q' := { q with isOpen := false }
  let s' : QMState :=
    { close_queue_timers :=
        removeChannelTimer s.close_queue_timers q.config_name q.channel_id,
      update_queue_timers :=
        schedule_update_queue s.update_queue_timers q.qid }
  (q', s')

theorem removeChannelTimer_not_mem (m : List (String × List String))
    (cfg chan : String) :
    chan ∉ (lookupKey (removeChannelTimer m cfg chan) cfg).getD [] := by
  induction m with
  | nil => simp [removeChannelTimer, lookupKey]
  | cons p rest ih =>
      obtain ⟨k, chans⟩ := p
      by_cases h : k = cfg
      · simp [removeChannelTimer, lookupKey, h]
      · simpa [removeChannelTimer, lookupKey, h] using ih

theorem removeChannelTimer_idem (m : List (String × List String))
    (cfg chan : String) :
    removeChannelTimer (removeChannelTimer m cfg chan) cfg chan
      = removeChannelTimer m cfg chan := by
  induction m with
  | nil => simp [removeChannelTimer]
  | cons p rest ih =>
      obtain ⟨k, chans⟩ := p
      by_cases h : k = cfg
      · simp only [removeChannelTimer, if_pos h]
        rw [List.filter_filter]
        simp
      · simp [removeChannelTimer, h, ih]

theorem schedule_update_queue_idem (l : List Nat) (qid : Nat) :
    schedule_update_queue (schedule_update_queue l qid) qid
      = schedule_update_queue l qid := by
  unfold schedule_update_queue
  by_cases h : qid ∈ l <;> simp [h]

/-- C9.  `close_channel_queue` sets `open = false`, schedules the
(debounced) persistence write for the queue, and drops the queue's
idle-close timer entry; and the operation is idempotent — closing an
already-closed queue reproduces exactly the state after the first close
(and, being a total function, raises nothing). -/
theorem close_channel_queue_spec (q : Queue) (s : QMState) :
    (close_channel_queue q s).1.isOpen = false ∧
    (close_channel_queue q s).1.qid
        ∈ (close_channel_queue q s).2.update_queue_timers ∧
    q.channel_id ∉
      (lookupKey (close_channel_queue q s).2.close_queue_timers
        q.config_name).getD [] ∧
    close_channel_queue (close_channel_queue q s).1 (close_channel_queue q s).2
      = close_channel_queue q s := by
  refine ⟨rfl, ?_, ?_, ?_⟩
  · show q.qid ∈ schedule_update_queue s.update_queue_timers q.qid
    unfold schedule_update_queue
    by_cases h : q.qid ∈ s.update_queue_timers <;> simp [h]
  · exact removeChannelTimer_not_mem _ _ _
  · show close_channel_queue { q with isOpen := false } _ = _
    unfold close_channel_queue
    simp [removeChannelTimer_idem, schedule_update_queue_idem]

/-! ## Scheduler manager (`scheduler_manager.py`) -/

/-- One entry of a per-config `sending_timers` list: an armed
single-message delivery timer.  `delay` is the fire offset passed to
`aio_timers.Timer`, `item` the message bound to the callback's args. -/
structure SendTimer where
  delay : Nat
  item : QItem
deriving DecidableEq, Repr

/-- The mutable state of `SchedulerManager`: `sending_status`
(config → `{"in_progress": bool}`) and `sending_timers`
(config → ordered timer list). -/
structure SchedulerState where
  sending_status : List (String × Bool)
  sending_timers : List (String × List SendTimer)
deriving DecidableEq, Repr

/-- `is_sending_in_progress` (lines 102–104):
`sending_status.get(cfg, {}).get("in_progress", False)`. -/
def is_sending_in_progress (status : List (String × Bool)) (cfg : String) :
    Bool :=
  (lookupKey status cfg).getD false

/-- `set_sending_status` (lines 106–116). -/
def set_sending_status (status : List (String × Bool)) (cfg : String)
    (b : Bool) : List (String × Bool) :=
  setKey status cfg b

/-- `add_sending_timer` (lines 118–130): append a freshly armed timer to
the config's list (creating the list when the key is absent). -/
def add_sending_timer (timers : List (String × List SendTimer))
    (cfg : String) (delay : Nat) (item : QItem) :
    List (String × List SendTimer) :=
  setKey timers cfg (((lookupKey timers cfg).getD []) ++ [⟨delay, item⟩])

/-- `remove_first_sending_timer` (lines 132–139): when the config has a
non-empty timer list, pop its front; if the list is now empty, set the
config's sending status to `False`.  Otherwise do nothing. -/
def remove_first_sending_timer (st : SchedulerState) (cfg : String) :
    SchedulerState :=
  match lookupKey st.sending_timers cfg with
  | some (_ :: ts) =>
      let timers' := setKey st.sending_timers cfg ts
      if ts.isEmpty then
        { sending_status := set_sending_status st.sending_status cfg false,
          sending_timers := timers' }
      else
        { st with sending_timers := timers' }
  | _ => st

/-- C10.  Calling `remove_first_sending_timer` for a config whose timer
list is empty (`some []`) or whose config name has no entry (`none`) is a
total no-op: the whole scheduler state — the `sending_status` map
included — is returned unchanged, and nothing is raised (the function is
total). -/
theorem remove_first_sending_timer_noop (st : SchedulerState) (cfg : String)
    (h : lookupKey st.sending_timers cfg = none ∨
         lookupKey st.sending_timers cfg = some []) :
    remove_first_sending_timer st cfg = st := by
  unfold remove_first_sending_timer
  rcases h with h | h <;> rw [h]

theorem remove_first_sending_timer_noop_witness :
    (lookupKey (SchedulerState.mk [("a", true)]
        [("a", [⟨5, QItem.text "x"⟩])]).sending_timers "b" = none ∨
     lookupKey (SchedulerState.mk [("a", true)]
        [("a", [⟨5, QItem.text "x"⟩])]).sending_timers "b" = some []) ∧
    remove_first_sending_timer
        (SchedulerState.mk [("a", true)] [("a", [⟨5, QItem.text "x"⟩])]) "b"
      = SchedulerState.mk [("a", true)] [("a", [⟨5, QItem.text "x"⟩])] :=
  ⟨Or.inl rfl,
   remove_first_sending_timer_noop _ "b" (Or.inl rfl)⟩

/-- `_send_message_callback` (`app.py` lines 258–268): try to deliver the
bound message through the transport (`sink`, an oracle that may fail);
any failure is caught and only logged (`except` block); in all cases
(`finally`) the front timer of the config's list is removed.  The second
component of the result is the trace of delivery-sink invocations. -/
def send_message_callback (sink : QItem → String → Except String Unit)
    (item : QItem) (cfg : String) (st : SchedulerState) :
    SchedulerState × List (QItem × String) :=
  match sink item cfg with
  | Except.ok _ => (remove_first_sending_timer st cfg, [(item, cfg)])
  | Except.error _ => (remove_first_sending_timer st cfg, [(item, cfg)])

theorem send_message_callback_eq (sink : QItem → String → Except String Unit)
    (item : QItem) (cfg : String) (st : SchedulerState) :
    send_message_callback sink item cfg st
      = (remove_first_sending_timer st cfg, [(item, cfg)]) := by
  unfold send_message_callback
  cases sink item cfg <;> rfl

/-- C8.  On every delivery-timer fire the sink is invoked with the item
and config (the trace is `[(item, cfg)]` for every sink outcome, success
or failure — the failure is swallowed, the function is total), the front
timer of the config's list is removed, and — exactly when the list
becomes empty — the config's `in_progress` flag is set to `false`
(otherwise the status map is untouched). -/
theorem send_message_callback_spec
    (sink : QItem → String → Except String Unit) (item : QItem)
    (cfg : String) (st : SchedulerState) (t : SendTimer) (ts : List SendTimer)
    (h : lookupKey st.sending_timers cfg = some (t :: ts)) :
    (send_message_callback sink item cfg st).2 = [(item, cfg)] ∧
    lookupKey (send_message_callback sink item cfg st).1.sending_timers cfg
      = some ts ∧
    (ts = [] →
      is_sending_in_progress
        (send_message_callback sink item cfg st).1.sending_status cfg
          = false) ∧
    (ts ≠ [] →
      (send_message_callback sink item cfg st).1.sending_status
        = st.sending_status) := by
  rw [send_message_callback_eq]
  unfold remove_first_sending_timer
  rw [h]
  cases ts with
  | nil =>
      refine ⟨rfl, ?_, fun _ => ?_, fun hne => absurd rfl hne⟩
      · simpa using lookupKey_setKey_self st.sending_timers cfg []
      · simp [is_sending_in_progress, set_sending_status,
          lookupKey_setKey_self]
  | cons t' ts' =>
      refine ⟨rfl, ?_, fun hemp => by simp at hemp, fun _ => rfl⟩
      simpa using lookupKey_setKey_self st.sending_timers cfg (t' :: ts')

theorem send_message_callback_spec_witness :
    lookupKey (SchedulerState.mk [("a", true)]
        [("a", [⟨5, QItem.text "x"⟩])]).sending_timers "a"
      = some [⟨5, QItem.text "x"⟩] ∧
    ((send_message_callback (fun _ _ => Except.error "boom")
        (QItem.text "x") "a"
        (SchedulerState.mk [("a", true)]
          [("a", [⟨5, QItem.text "x"⟩])])).2 = [(QItem.text "x", "a")] ∧
     lookupKey (send_message_callback (fun _ _ => Except.error "boom")
        (QItem.text "x") "a"
        (SchedulerState.mk [("a", true)]
          [("a", [⟨5, QItem.text "x"⟩])])).1.sending_timers "a"
       = some [] ∧
     (([] : List SendTimer) = [] →
       is_sending_in_progress
         (send_message_callback (fun _ _ => Except.error "boom")
           (QItem.text "x") "a"
           (SchedulerState.mk [("a", true)]
             [("a", [⟨5, QItem.text "x"⟩])])).1.sending_status "a"
           = false) ∧
     (([] : List SendTimer) ≠ [] →
       (send_message_callback (fun _ _ => Except.error "boom")
         (QItem.text "x") "a"
         (SchedulerState.mk [("a", true)]
           [("a", [⟨5, QItem.text "x"⟩])])).1.sending_status
         = (SchedulerState.mk [("a", true)]
             [("a", [⟨5, QItem.text "x"⟩])]).sending_status)) :=
  ⟨rfl,
   send_message_callback_spec (fun _ _ => Except.error "boom")
     (QItem.text "x") "a" _ ⟨5, QItem.text "x"⟩ [] rfl⟩

/-! ## C3 — delivery order under out-of-order timer firing -/

/-- Fire a sequence of delivery-timer callbacks in the given external
order: each fire runs `_send_message_callback` with the message that was
bound to that timer's `args` at scheduling time.  Returns the final
scheduler state and the concatenated delivery-sink trace. -/
def fireTimers (sink : QItem → String → Except String Unit) (cfg : String)
    (st : SchedulerState) : List QItem → SchedulerState × List (QItem × String)
  | [] => (st, [])
  | it :: rest =>
      let r1 := send_message_callback sink it cfg st
      let r2 := fireTimers sink cfg r1.1 rest
      (r2.1, r1.2 ++ r2.2)

/-- C3 counterexample.  With timers scheduled for items `a`, `b`, `c` at
strictly increasing offsets `[5, 9, 14]`, firing the timers in the
external order `c, b, a` delivers `c` before `b` before `a` — each
callback delivers its *own* bound message and merely pops the front
`Timer` object off the tracking list — so the claimed FIFO order
`a, b, c` does not hold for arbitrary external fire orders. -/
theorem out_of_order_fire_delivers_out_of_order :
    (fireTimers (fun _ _ => Except.ok ()) "cfg"
        (SchedulerState.mk [("cfg", true)]
          [("cfg", [⟨5, QItem.text "a"⟩, ⟨9, QItem.text "b"⟩,
                    ⟨14, QItem.text "c"⟩])])
        [QItem.text "c", QItem.text "b", QItem.text "a"]).2
      = [(QItem.text "c", "cfg"), (QItem.text "b", "cfg"),
         (QItem.text "a", "cfg")] ∧
    (fireTimers (fun _ _ => Except.ok ()) "cfg"
        (SchedulerState.mk [("cfg", true)]
          [("cfg", [⟨5, QItem.text "a"⟩, ⟨9, QItem.text "b"⟩,
                    ⟨14, QItem.text "c"⟩])])
        [QItem.text "c", QItem.text "b", QItem.text "a"]).2
      ≠ [(QItem.text "a", "cfg"), (QItem.text "b", "cfg"),
         (QItem.text "c", "cfg")] := by
  constructor
  · rfl
  · decide

/-- C3 (amended).  Items are delivered in the external order in which the
timers fire (each fire delivers its own bound item and pops the front of
the profile's timer list); when the timers fire in list order — which the
monotonically non-decreasing offsets produce under a faithful clock —
delivery is FIFO: firing the timers of a config's list in list order
delivers exactly the scheduled items in order, drains the list, and ends
with the config's `in_progress` flag `false`. -/
theorem fire_in_list_order_is_fifo
    (sink : QItem → String → Except String Unit) (cfg : String)
    (st : SchedulerState) (ts : List SendTimer)
    (h : lookupKey st.sending_timers cfg = some ts) :
    (fireTimers sink cfg st (ts.map SendTimer.item)).2
      = ts.map (fun t => (t.item, cfg)) ∧
    lookupKey (fireTimers sink cfg st
        (ts.map SendTimer.item)).1.sending_timers cfg = some [] ∧
    (ts ≠ [] →
      is_sending_in_progress (fireTimers sink cfg st
        (ts.map SendTimer.item)).1.sending_status cfg = false) := by
  induction ts generalizing st with
  | nil =>
      refine ⟨rfl, ?_, fun hne => absurd rfl hne⟩
      simpa [fireTimers] using h
  | cons t rest ih =>
      have hcb := send_message_callback_eq sink t.item cfg st
      have hrem : remove_first_sending_timer st cfg =
          if rest.isEmpty then
            { sending_status := set_sending_status st.sending_status cfg false,
              sending_timers := setKey st.sending_timers cfg rest }
          else
            { st with sending_timers := setKey st.sending_timers cfg rest } := by
        unfold remove_first_sending_timer
        rw [h]
      have hlook : lookupKey (remove_first_sending_timer st cfg).sending_timers
          cfg = some rest := by
        rw [hrem]
        cases hr : rest.isEmpty <;>
          simp [hr, lookupKey_setKey_self]
      obtain ⟨ih1, ih2, ih3⟩ := ih (remove_first_sending_timer st cfg) hlook
      refine ⟨?_, ?_, fun _ => ?_⟩
      · simp only [List.map_cons, fireTimers, hcb]
        rw [ih1]
        rfl
      · simp only [List.map_cons, fireTimers, hcb]
        exact ih2
      · simp only [List.map_cons, fireTimers, hcb]
        cases rest with
        | nil =>
            simp only [List.map_nil, fireTimers]
            rw [hrem]
            simp [is_sending_in_progress, set_sending_status,
              lookupKey_setKey_self]
        | cons r rs => exact ih3 (by simp)

theorem fire_in_list_order_is_fifo_witness :
    lookupKey (SchedulerState.mk [("cfg", false)]
        [("cfg", [⟨5, QItem.text "a"⟩, ⟨9, QItem.text "b"⟩,
                  ⟨14, QItem.text "c"⟩])]).sending_timers "cfg"
      = some [⟨5, QItem.text "a"⟩, ⟨9, QItem.text "b"⟩,
              ⟨14, QItem.text "c"⟩] ∧
    ((fireTimers (fun _ _ => Except.ok ()) "cfg"
        (SchedulerState.mk [("cfg", false)]
          [("cfg", [⟨5, QItem.text "a"⟩, ⟨9, QItem.text "b"⟩,
                    ⟨14, QItem.text "c"⟩])])
        ([⟨5, QItem.text "a"⟩, ⟨9, QItem.text "b"⟩,
          (⟨14, QItem.text "c"⟩ : SendTimer)].map SendTimer.item)).2
      = [⟨5, QItem.text "a"⟩, ⟨9, QItem.text "b"⟩,
         (⟨14, QItem.text "c"⟩ : SendTimer)].map (fun t => (t.item, "cfg")) ∧
     lookupKey (fireTimers (fun _ _ => Except.ok ()) "cfg"
        (SchedulerState.mk [("cfg", false)]
          [("cfg", [⟨5, QItem.text "a"⟩, ⟨9, QItem.text "b"⟩,
                    ⟨14, QItem.text "c"⟩])])
        ([⟨5, QItem.text "a"⟩, ⟨9, QItem.text "b"⟩,
          (⟨14, QItem.text "c"⟩ : SendTimer)].map
            SendTimer.item)).1.sending_timers "cfg" = some [] ∧
     ([⟨5, QItem.text "a"⟩, ⟨9, QItem.text "b"⟩,
       (⟨14, QItem.text "c"⟩ : SendTimer)] ≠ ([] : List SendTimer) →
       is_sending_in_progress (fireTimers (fun _ _ => Except.ok ()) "cfg"
          (SchedulerState.mk [("cfg", false)]
            [("cfg", [⟨5, QItem.text "a"⟩, ⟨9, QItem.text "b"⟩,
                      ⟨14, QItem.text "c"⟩])])
          ([⟨5, QItem.text "a"⟩, ⟨9, QItem.text "b"⟩,
            (⟨14, QItem.text "c"⟩ : SendTimer)].map
              SendTimer.item)).1.sending_status "cfg" = false)) :=
  ⟨rfl,
   fire_in_list_order_is_fifo (fun _ _ => Except.ok ()) "cfg" _
     [⟨5, QItem.text "a"⟩, ⟨9, QItem.text "b"⟩, ⟨14, QItem.text "c"⟩] rfl⟩

/-! ## Queue population (`app.py` lines 287–355) -/

/-- `_is_last_message_duplicated` (app.py lines 344–355).  Python returns
`(isinstance(last, dict) and last.get("message") is not None and
last.message == text) or (isinstance(last, str) and last == text)`.
The first disjunct never holds: the only dicts in `queue["messages"]` are
album dicts `{"ids", "grouped_id", "files"}`, which have no `"message"`
key (and `last.message` — attribute access on a dict — would raise if it
were ever reached).  A Telethon `Message` entry matches neither
`isinstance` test.  So the check is true exactly when the last entry is a
plain `str` equal to `text`. -/
def is_last_message_duplicated (l : List QItem) (text : String) : Bool :=
  match l.getLast? with
  | some (QItem.text s) => s == text
  | _ => false

/-- `_get_album_from_queue` composed with `_append_media_to_album`
(app.py lines 315–342): append the message's media and id to the first
album entry with this `grouped_id`; when none exists, a fresh album
`{"ids": [], "grouped_id": g, "files": []}` is appended at the end of the
list and receives them. -/
def append_media_to_album (g msgId : Nat) (media : Option Nat) :
    List QItem → List QItem
  | [] => [QItem.album g [msgId] [media]]
  | QItem.album g' ids files :: rest =>
      if g' = g then QItem.album g' (ids ++ [msgId]) (files ++ [media]) :: rest
      else QItem.album g' ids files :: append_media_to_album g msgId media rest
  | it :: rest => it :: append_media_to_album g msgId media rest

/-- One iteration of the `for message in messages` loop of
`_add_messages_to_queue` (app.py lines 295–313), acting on the
`queue["messages"]` list.  `allowed` is the content-filter collaborator
(`is_message_allowed`), `trans` the text produced for the message by
`process_message_transformations` (which rewrites only the text).
For a grouped message, its media and id join the album and the caption
text is appended afterwards if non-empty and not a duplicate of the last
entry; a non-grouped message is appended as a `Message` object unless the
duplicate check fires. -/
def add_message (allowed : Msg → Bool) (trans : Msg → String)
    (l : List QItem) (m : Msg) : List QItem :=
  if allowed m then
    let text := trans m
    match m.grouped_id with
    | some g =>
        let l1 := append_media_to_album g m.id m.media l
        if text != "" && !(is_last_message_duplicated l1 text) then
          l1 ++ [QItem.text text]
        else l1
    | none =>
        if !(is_last_message_duplicated l text) then
          l ++ [QItem.msg { m with text := text }]
        else l
  else l

/-- `_add_messages_to_queue` (app.py lines 287–313) on the
`queue["messages"]` list: fold the per-message step over the fetched
history, oldest first. -/
def add_messages (allowed : Msg → Bool) (trans : Msg → String)
    (l : List QItem) (ms : List Msg) : List QItem :=
  ms.foldl (add_message allowed trans) l

/-- The text a queue entry carries, in the spec's sense: a plain
`Message` entry carries its text, a caption string entry carries itself,
an album entry carries none. -/
def itemText : QItem → Option String
  | QItem.msg m => some m.text
  | QItem.text s => some s
  | QItem.album _ _ _ => none

/-- Whether some entry is immediately followed by an entry carrying the
identical text — the situation C4 says population never produces. -/
def hasAdjacentDuplicateText : List QItem → Bool
  | a :: b :: rest =>
      (match itemText a, itemText b with
       | some s, some s' => s == s'
       | _, _ => false) || hasAdjacentDuplicateText (b :: rest)
  | _ => false

/-- C4.  The code violates the claim: two consecutive allowed non-album
messages with the identical text `"x"` are BOTH appended, because
`_is_last_message_duplicated` compares the text only against a preceding
plain-`str` entry (an album caption) — its dict branch never matches a
Telethon `Message` object — so adjacent-duplicate suppression does not
happen for plain message entries and the populated queue ends with two
adjacent entries carrying the same text. -/
theorem adjacent_duplicate_plain_messages_kept :
    add_messages (fun _ => true) (fun m => m.text) []
        [⟨1, none, "x", none⟩, ⟨2, none, "x", none⟩]
      = [QItem.msg ⟨1, none, "x", none⟩, QItem.msg ⟨2, none, "x", none⟩] ∧
    hasAdjacentDuplicateText
      (add_messages (fun _ => true) (fun m => m.text) []
        [⟨1, none, "x", none⟩, ⟨2, none, "x", none⟩]) = true := by
  constructor <;> rfl

/-! ## C6 — album merge -/

/-- The album-entry test of `_get_album_from_queue`'s generator
expression: a dict entry whose `grouped_id` equals `g`. -/
def isAlbumFor (g : Nat) : QItem → Bool
  | QItem.album g' _ _ => g' == g
  | _ => false

/-- The `ids`/`files` payload of the first album entry for `g`, if one
exists (the entry `_get_album_from_queue(queue, g, create_not_exist=False)`
would return). -/
def albumEntry : List QItem → Nat → Option (List Nat × List (Option Nat))
  | [], _ => none
  | QItem.album g' ids files :: rest, g =>
      if g' = g then some (ids, files) else albumEntry rest g
  | _ :: rest, g => albumEntry rest g

/-- A fetched message that joins album `g`: allowed by the filter and
carrying `grouped_id == g`. -/
def isHit (allowed : Msg → Bool) (g : Nat) (m : Msg) : Bool :=
  allowed m && (m.grouped_id == some g)

/-- The sub-sequence of fetched messages that joins album `g`. -/
def hitsFor (allowed : Msg → Bool) (g : Nat) (ms : List Msg) : List Msg :=
  ms.filter (isHit allowed g)

theorem albumEntry_append_media_self (g i : Nat) (f : Option Nat)
    (l : List QItem) :
    albumEntry (append_media_to_album g i f l) g
      = some (match albumEntry l g with
              | some (I, F) => (I ++ [i], F ++ [f])
              | none => ([i], [f])) := by
  induction l with
  | nil => simp [append_media_to_album, albumEntry]
  | cons it rest ih =>
      match it with
      | QItem.album g' ids files =>
          by_cases h : g' = g
          · subst h
            simp [append_media_to_album, albumEntry]
          · simp [append_media_to_album, albumEntry, h, ih]
      | QItem.msg m => simpa [append_media_to_album, albumEntry] using ih
      | QItem.text s => simpa [append_media_to_album, albumEntry] using ih

theorem albumEntry_append_media_other (g g'' i : Nat) (f : Option Nat)
    (l : List QItem) (h : g'' ≠ g) :
    albumEntry (append_media_to_album g'' i f l) g = albumEntry l g := by
  induction l with
  | nil => simp [append_media_to_album, albumEntry, h]
  | cons it rest ih =>
      match it with
      | QItem.album g' ids files =>
          by_cases h' : g' = g''
          · subst h'
            simp [append_media_to_album, albumEntry, h, ih]
          · by_cases h'' : g' = g
            · subst h''
              simp [append_media_to_album, albumEntry, h', ih]
            · simp [append_media_to_album, albumEntry, h', h'', ih]
      | QItem.msg m => simpa [append_media_to_album, albumEntry] using ih
      | QItem.text s => simpa [append_media_to_album, albumEntry] using ih

theorem albumEntry_append_nonalbum (l : List QItem) (x : QItem) (g : Nat)
    (h : isAlbumFor g x = false) :
    albumEntry (l ++ [x]) g = albumEntry l g := by
  induction l with
  | nil =>
      match x with
      | QItem.album g' ids files =>
          simp only [isAlbumFor] at h
          rw [beq_eq_false_iff_ne] at h
          simp [albumEntry, h]
      | QItem.msg m => simp [albumEntry]
      | QItem.text s => simp [albumEntry]
  | cons it rest ih =>
      match it with
      | QItem.album g' ids files =>
          by_cases h' : g' = g <;> simp [albumEntry, h', ih]
      | QItem.msg m => simpa [albumEntry] using ih
      | QItem.text s => simpa [albumEntry] using ih

theorem countP_append_media_self (g i : Nat) (f : Option Nat)
    (l : List QItem) :
    (append_media_to_album g i f l).countP (isAlbumFor g)
      = if (albumEntry l g).isSome then l.countP (isAlbumFor g)
        else l.countP (isAlbumFor g) + 1 := by
  induction l with
  | nil => simp [append_media_to_album, albumEntry, List.countP_cons, isAlbumFor]
  | cons it rest ih =>
      match it with
      | QItem.album g' ids files =>
          by_cases h : g' = g
          · subst h
            simp [append_media_to_album, albumEntry, List.countP_cons, isAlbumFor]
          · simp only [append_media_to_album, if_neg h, albumEntry,
              List.countP_cons, ih, isAlbumFor]
            by_cases hrest : (albumEntry rest g).isSome <;>
              simp [hrest, h]
      | QItem.msg m =>
          simp only [append_media_to_album, albumEntry, List.countP_cons, ih,
            isAlbumFor]
          by_cases hrest : (albumEntry rest g).isSome <;> simp [hrest]
      | QItem.text s =>
          simp only [append_media_to_album, albumEntry, List.countP_cons, ih,
            isAlbumFor]
          by_cases hrest : (albumEntry rest g).isSome <;> simp [hrest]

theorem countP_append_media_other (g g'' i : Nat) (f : Option Nat)
    (l : List QItem) (h : g'' ≠ g) :
    (append_media_to_album g'' i f l).countP (isAlbumFor g)
      = l.countP (isAlbumFor g) := by
  induction l with
  | nil => simp [append_media_to_album, List.countP_cons, isAlbumFor, h]
  | cons it rest ih =>
      match it with
      | QItem.album g' ids files =>
          by_cases h' : g' = g''
          · subst h'
            simp [append_media_to_album, List.countP_cons, isAlbumFor, ih]
          · simp [append_media_to_album, h', List.countP_cons, isAlbumFor, ih]
      | QItem.msg m =>
          simpa [append_media_to_album, List.countP_cons, isAlbumFor] using ih
      | QItem.text s =>
          simpa [append_media_to_album, List.countP_cons, isAlbumFor] using ih

theorem countP_append_nonalbum (l : List QItem) (x : QItem) (g : Nat)
    (h : isAlbumFor g x = false) :
    (l ++ [x]).countP (isAlbumFor g) = l.countP (isAlbumFor g) := by
  simp [List.countP_append, List.countP_cons, h]

theorem add_message_albumEntry (a : Msg → Bool) (t : Msg → String) (g : Nat)
    (l : List QItem) (m : Msg) :
    albumEntry (add_message a t l m) g
      = if isHit a g m then
          some (match albumEntry l g with
                | some (I, F) => (I ++ [m.id], F ++ [m.media])
                | none => ([m.id], [m.media]))
        else albumEntry l g := by
  unfold add_message isHit
  cases hA : a m
  · simp
  · cases hg : m.grouped_id with
    | none =>
        have hap := albumEntry_append_nonalbum l
          (QItem.msg { m with text := t m }) g (by simp [isAlbumFor])
        rw [hg] at hap
        cases hdup : is_last_message_duplicated l (t m) <;>
          simp [hdup, hap]
    | some g' =>
        have hcapA := fun (s : String) => albumEntry_append_nonalbum
          (append_media_to_album g' m.id m.media l) (QItem.text s) g
          (by simp [isAlbumFor])
        by_cases hgg : g' = g
        · subst hgg
          cases hcap : (t m != "" &&
              !is_last_message_duplicated
                (append_media_to_album g' m.id m.media l) (t m)) <;>
            simp [hcap, hcapA, albumEntry_append_media_self]
        · have hne : (some g' == some g) = false := by simp [hgg]
          cases hcap : (t m != "" &&
              !is_last_message_duplicated
                (append_media_to_album g' m.id m.media l) (t m)) <;>
            simp [hcap, hne, hcapA,
              albumEntry_append_media_other g g' m.id m.media l hgg]

theorem add_message_countP (a : Msg → Bool) (t : Msg → String) (g : Nat)
    (l : List QItem) (m : Msg) :
    (add_message a t l m).countP (isAlbumFor g)
      = if isHit a g m && !(albumEntry l g).isSome then
          l.countP (isAlbumFor g) + 1
        else l.countP (isAlbumFor g) := by
  unfold add_message isHit
  cases hA : a m
  · simp
  · cases hg : m.grouped_id with
    | none =>
        have hap := countP_append_nonalbum l
          (QItem.msg { m with text := t m }) g (by simp [isAlbumFor])
        rw [hg] at hap
        cases hdup : is_last_message_duplicated l (t m) <;>
          simp [hdup, hap, isAlbumFor]
    | some g' =>
        have hcapC := fun (s : String) => countP_append_nonalbum
          (append_media_to_album g' m.id m.media l) (QItem.text s) g
          (by simp [isAlbumFor])
        by_cases hgg : g' = g
        · subst hgg
          cases hcap : (t m != "" &&
              !is_last_message_duplicated
                (append_media_to_album g' m.id m.media l) (t m)) <;>
            simp only [hcap, Bool.false_eq_true, if_false, if_true,
              Bool.true_and, beq_self_eq_true, Bool.and_true,
              hcapC, countP_append_media_self] <;>
            by_cases hs : (albumEntry l g').isSome <;> simp [hs]
        · have hne : (some g' == some g) = false := by simp [hgg]
          cases hcap : (t m != "" &&
              !is_last_message_duplicated
                (append_media_to_album g' m.id m.media l) (t m)) <;>
            simp [hcap, hne, hcapC,
              countP_append_media_other g g' m.id m.media l hgg]

theorem add_messages_albumEntry (a : Msg → Bool) (t : Msg → String) (g : Nat)
    (ms : List Msg) : ∀ l : List QItem,
    albumEntry (add_messages a t l ms) g
      = match albumEntry l g with
        | some (I, F) => some (I ++ (hitsFor a g ms).map Msg.id,
                               F ++ (hitsFor a g ms).map Msg.media)
        | none =>
            if hitsFor a g ms = [] then none
            else some ((hitsFor a g ms).map Msg.id,
                       (hitsFor a g ms).map Msg.media) := by
  induction ms with
  | nil =>
      intro l
      cases h : albumEntry l g with
      | none => simp [add_messages, hitsFor, h]
      | some p => simp [add_messages, hitsFor, h]
  | cons m ms ih =>
      intro l
      have step : add_messages a t l (m :: ms)
          = add_messages a t (add_message a t l m) ms := rfl
      rw [step, ih, add_message_albumEntry]
      cases hHit : isHit a g m
      · simp only [Bool.false_eq_true, if_false]
        simp [hitsFor, List.filter_cons, hHit]
      · simp only [if_pos]
        cases h : albumEntry l g with
        | none =>
            simp [hitsFor, List.filter_cons, hHit, h]
        | some p =>
            obtain ⟨I, F⟩ := p
            simp [hitsFor, List.filter_cons, hHit, h]

theorem add_messages_countP (a : Msg → Bool) (t : Msg → String) (g : Nat)
    (ms : List Msg) : ∀ l : List QItem,
    (add_messages a t l ms).countP (isAlbumFor g)
      = l.countP (isAlbumFor g)
        + (if (albumEntry l g).isSome = false ∧ hitsFor a g ms ≠ [] then 1
           else 0) := by
  induction ms with
  | nil => intro l; simp [add_messages, hitsFor]
  | cons m ms ih =>
      intro l
      have step : add_messages a t l (m :: ms)
          = add_messages a t (add_message a t l m) ms := rfl
      rw [step, ih, add_message_countP, add_message_albumEntry]
      cases hHit : isHit a g m
      · simp only [Bool.false_and, Bool.false_eq_true, if_false]
        simp [hitsFor, List.filter_cons, hHit]
      · cases h : albumEntry l g with
        | none =>
            simp [hitsFor, List.filter_cons, hHit, h]
        | some p =>
            simp [hitsFor, List.filter_cons, hHit, h]

/-- C6.  For every queue population run (from the empty `messages` list
that queues carry outside a drain) and every `grouped_id` `g`: there is
exactly one album entry for `g` when at least one allowed fetched message
carries `grouped_id == g` and none otherwise (a second entry is never
created), and that entry's `ids`/`files` lists are exactly the ids and
media of those messages in arrival order (each subsequent item appends to
the existing entry).  Concretely, two items with `grouped_id = 1` followed
by a caption produce one album with two `ids`/`files` entries followed by
one text entry. -/
theorem album_merge_unique (a : Msg → Bool) (t : Msg → String)
    (ms : List Msg) (g : Nat) :
    ((add_messages a t [] ms).countP (isAlbumFor g)
        = if hitsFor a g ms = [] then 0 else 1) ∧
    (albumEntry (add_messages a t [] ms) g
        = if hitsFor a g ms = [] then none
          else some ((hitsFor a g ms).map Msg.id,
                     (hitsFor a g ms).map Msg.media)) ∧
    add_messages (fun _ => true) (fun m => m.text) []
        [⟨1, some 1, "", some 7⟩, ⟨2, some 1, "caption", some 8⟩]
      = [QItem.album 1 [1, 2] [some 7, some 8], QItem.text "caption"] := by
  refine ⟨?_, ?_, rfl⟩
  · rw [add_messages_countP]
    by_cases h : hitsFor a g ms = [] <;> simp [albumEntry, h]
  · rw [add_messages_albumEntry]
    by_cases h : hitsFor a g ms = [] <;> simp [albumEntry, h]

/-! ## The drain tick — `_send_messages_from_queues`
(`app.py` lines 171–256)

The Python loop `for i, queue in enumerate(queues)` iterates by index over
`self.queue_manager.queues` — the very list that `_delete_sent_queue`
mutates via `list.remove` mid-iteration.  `list.remove` deletes the first
element equal to the drained queue; every later element shifts left one
position, so the element that directly followed the deletion point is
skipped by the iterator.  (When the drained queue has an equal earlier
duplicate, that earlier one is removed and the drained copy stays; the
shift — and hence the skip — happens either way because the removal point
is at or before the current index.)  `sendLoop` below embeds exactly this:
`done` is the prefix already behind the iterator, the list argument the
suffix still ahead of it, and after a deletion the head of the remaining
suffix is moved to `done` unexamined.

`sending_status` is only read during the loop (`is_sending_in_progress`);
the fresh `new_sending_status` entries are flushed into it after the loop
ends, so it is a plain parameter here. -/

/-- `ForwardgramApp.SENDING_TIME_LIMIT` (`app.py` line 28): 60 * 15. -/
def SENDING_TIME_LIMIT : Nat := 900

/-- The `while queue["messages"]` loop (app.py lines 213–228): one jitter
draw per message is added to the config's cumulative offset (`jit` is the
`random.randrange(MIN, MAX)` oracle, indexed by draw counter `k`), one
delivery timer is armed per message at the accumulated offset, and the
message is deleted from the queue.  Returns the final cumulative offset,
the next draw index and the armed timers in order. -/
def scheduleMsgs (jit : Nat → Nat) (k cum : Nat) :
    List QItem → Nat × Nat × List SendTimer
  | [] => (cum, k, [])
  | it :: rest =>
      let cum' := cum + jit k
      let r := scheduleMsgs jit (k + 1) cum' rest
      (r.1, r.2.1, ⟨cum', it⟩ :: r.2.2)

/-- The external collaborators of one drain tick: `fetch` is
`get_channel_history(channel_id, min_id, max_id)` (oldest first),
`allowed` / `trans` the content filter and text transformer,
`jit` the jitter randomness, `channel_filter` the optional `channel_id`
argument (`""` = no filter). -/
structure TickEnv where
  fetch : String → Nat → Nat → List Msg
  allowed : Msg → Bool
  trans : Msg → String
  jit : Nat → Nat
  channel_filter : String

/-- What one drain tick produces: the queue registry after the loop, the
updated timer lists, the next randomness index, the configs collected in
`new_sending_status` (insertion order), the queues deleted from registry
and store, and whether the loop ended through the time-budget `break`. -/
structure TickResult where
  queues : List Queue
  sending_timers : List (String × List SendTimer)
  rand_idx : Nat
  new_sending_status : List String
  deleted : List Queue
  brk : Bool
deriving DecidableEq, Repr

/-- Lines 193–194: `if sending_timer.get(cfg) is None: sending_timer[cfg] = 0`. -/
def cumInit (cum : List (String × Nat)) (cfg : String) : List (String × Nat) :=
  if (lookupKey cum cfg).isNone then setKey cum cfg 0 else cum

/-- Lines 201–205: skip a queue that is open, empty, or (when a channel
filter is given) not matching it. -/
def skipQueue (env : TickEnv) (q : Queue) : Bool :=
  q.isOpen || (q.min_id == 0)
    || (env.channel_filter != "" && q.channel_id != env.channel_filter)

/-- The per-config products of draining one eligible queue. -/
structure DrainOut where
  q2 : Queue
  timers : List (String × List SendTimer)
  cum : List (String × Nat)
  newStatus : List String
  k : Nat
  cEnd : Nat

/-- Lines 208–232: populate the queue from the fetched history
(`_populate_messages_in_queue` + `_add_messages_to_queue`), convert every
message into a delivery timer at the accumulating per-config offset
(emptying `queue["messages"]`), and record the config in
`new_sending_status` when its cumulative offset is positive. -/
def drainStep (env : TickEnv) (timers : List (String × List SendTimer))
    (k : Nat) (cum1 : List (String × Nat)) (newStatus : List String)
    (q : Queue) : DrainOut :=
  let msgs1 := add_messages env.allowed env.trans q.messages
    (env.fetch q.channel_id q.min_id q.max_id)
  let r := scheduleMsgs env.jit k ((lookupKey cum1 q.config_name).getD 0) msgs1
  { q2 := { q with messages := [] },
    timers := setKey timers q.config_name
      (((lookupKey timers q.config_name).getD []) ++ r.2.2),
    cum := setKey cum1 q.config_name r.1,
    newStatus := if r.1 > 0 && !(newStatus.contains q.config_name) then
        newStatus ++ [q.config_name]
      else newStatus,
    k := r.2.1,
    cEnd := r.1 }

/-- Lines 238–239 (`_delete_sent_queue` → `list.remove`): remove the first
element equal to the drained queue from the live list.  In prefix form:
when an equal element sits in the prefix already behind the iterator, that
one goes and the drained copy (at the current index) stays; otherwise the
drained copy itself goes. -/
def drainDone (done : List Queue) (q2 : Queue) : List Queue :=
  if done.contains q2 then done.erase q2 ++ [q2] else done

/-- The `for i, queue in enumerate(queues)` loop of
`_send_messages_from_queues` (app.py lines 184–243), with Python's
iterate-while-removing semantics made explicit (see the section comment).
Per queue: skip while the config's sending status is in progress;
initialise the config's cumulative `sending_timer` slot to 0 when absent;
skip open, empty or filtered-out queues; otherwise drain the queue
(`drainStep`), delete it (registry: `drainDone`, store: the `deleted`
output, after which the iterator skips the next element — see the section
comment), and break out of the whole loop when the config's cumulative
offset has reached `SENDING_TIME_LIMIT`. -/
def sendLoop (env : TickEnv) (status : List (String × Bool))
    (timers : List (String × List SendTimer)) (k : Nat)
    (done : List Queue) (cum : List (String × Nat))
    (newStatus : List String) (deleted : List Queue) :
    List Queue → TickResult
  | [] => ⟨done, timers, k, newStatus, deleted, false⟩
  | q :: todo =>
      if is_sending_in_progress status q.config_name then
        sendLoop env status timers k (done ++ [q]) cum newStatus deleted todo
      else
        let cum1 := cumInit cum q.config_name
        if skipQueue env q then
          sendLoop env status timers k (done ++ [q]) cum1 newStatus deleted
            todo
        else
          let d := drainStep env timers k cum1 newStatus q
          let done1 := drainDone done d.q2
          if SENDING_TIME_LIMIT ≤ d.cEnd then
            ⟨done1 ++ todo, d.timers, d.k, d.newStatus, deleted ++ [d.q2],
             true⟩
          else
            match todo with
            | [] => ⟨done1, d.timers, d.k, d.newStatus, deleted ++ [d.q2],
                     false⟩
            | x :: rest =>
                sendLoop env status d.timers d.k (done1 ++ [x]) d.cum
                  d.newStatus (deleted ++ [d.q2]) rest

/-- The application state a drain tick touches. -/
structure AppState where
  queues : List Queue
  sending_status : List (String × Bool)
  sending_timers : List (String × List SendTimer)
  rand_idx : Nat
deriving DecidableEq, Repr

/-- The post-loop flush (app.py lines 246–249): every config recorded in
`new_sending_status` gets `set_sending_status(cfg, True)`. -/
def flushStatus (status : List (String × Bool)) :
    List String → List (String × Bool)
  | [] => status
  | c :: cs => flushStatus (set_sending_status status c true) cs

/-- `_send_messages_from_queues` (app.py lines 171–256): run the loop over
the registry and flush the collected `new_sending_status` entries.
Returns the new state, the queues deleted during the tick, and whether the
tick ended through the time-budget break. -/
def send_messages_from_queues (env : TickEnv) (st : AppState) :
    AppState × List Queue × Bool :=
  let r := sendLoop env st.sending_status st.sending_timers st.rand_idx
    [] [] [] [] st.queues
  ({ queues := r.queues,
     sending_status := flushStatus st.sending_status r.new_sending_status,
     sending_timers := r.sending_timers,
     rand_idx := r.rand_idx }, r.deleted, r.brk)

/-! ### Step equations for `sendLoop` -/

theorem sendLoop_nil (env : TickEnv) (status : List (String × Bool))
    (timers : List (String × List SendTimer)) (k : Nat) (done : List Queue)
    (cum : List (String × Nat)) (ns : List String) (del : List Queue) :
    sendLoop env status timers k done cum ns del []
      = ⟨done, timers, k, ns, del, false⟩ := rfl

theorem sendLoop_cons_busy (env : TickEnv) (status : List (String × Bool))
    (timers : List (String × List SendTimer)) (k : Nat) (done : List Queue)
    (cum : List (String × Nat)) (ns : List String) (del : List Queue)
    (q : Queue) (todo : List Queue)
    (h : is_sending_in_progress status q.config_name = true) :
    sendLoop env status timers k done cum ns del (q :: todo)
      = sendLoop env status timers k (done ++ [q]) cum ns del todo := by
  simp [sendLoop, h]

theorem sendLoop_cons_skip (env : TickEnv) (status : List (String × Bool))
    (timers : List (String × List SendTimer)) (k : Nat) (done : List Queue)
    (cum : List (String × Nat)) (ns : List String) (del : List Queue)
    (q : Queue) (todo : List Queue)
    (h1 : is_sending_in_progress status q.config_name = false)
    (h2 : skipQueue env q = true) :
    sendLoop env status timers k done cum ns del (q :: todo)
      = sendLoop env status timers k (done ++ [q])
          (cumInit cum q.config_name) ns del todo := by
  simp [sendLoop, h1, h2]

theorem sendLoop_cons_drain_break (env : TickEnv)
    (status : List (String × Bool))
    (timers : List (String × List SendTimer)) (k : Nat) (done : List Queue)
    (cum : List (String × Nat)) (ns : List String) (del : List Queue)
    (q : Queue) (todo : List Queue)
    (h1 : is_sending_in_progress status q.config_name = false)
    (h2 : skipQueue env q = false)
    (h3 : SENDING_TIME_LIMIT
        ≤ (drainStep env timers k (cumInit cum q.config_name) ns q).cEnd) :
    sendLoop env status timers k done cum ns del (q :: todo)
      = ⟨drainDone done
            (drainStep env timers k (cumInit cum q.config_name) ns q).q2
          ++ todo,
         (drainStep env timers k (cumInit cum q.config_name) ns q).timers,
         (drainStep env timers k (cumInit cum q.config_name) ns q).k,
         (drainStep env timers k (cumInit cum q.config_name) ns q).newStatus,
         del ++ [(drainStep env timers k (cumInit cum q.config_name) ns q).q2],
         true⟩ := by
  simp [sendLoop, h1, h2, h3]

theorem sendLoop_cons_drain_last (env : TickEnv)
    (status : List (String × Bool))
    (timers : List (String × List SendTimer)) (k : Nat) (done : List Queue)
    (cum : List (String × Nat)) (ns : List String) (del : List Queue)
    (q : Queue)
    (h1 : is_sending_in_progress status q.config_name = false)
    (h2 : skipQueue env q = false)
    (h3 : ¬ SENDING_TIME_LIMIT
        ≤ (drainStep env timers k (cumInit cum q.config_name) ns q).cEnd) :
    sendLoop env status timers k done cum ns del [q]
      = ⟨drainDone done
            (drainStep env timers k (cumInit cum q.config_name) ns q).q2,
         (drainStep env timers k (cumInit cum q.config_name) ns q).timers,
         (drainStep env timers k (cumInit cum q.config_name) ns q).k,
         (drainStep env timers k (cumInit cum q.config_name) ns q).newStatus,
         del ++ [(drainStep env timers k (cumInit cum q.config_name) ns q).q2],
         false⟩ := by
  simp [sendLoop, h1, h2, h3]

theorem sendLoop_cons_drain_next (env : TickEnv)
    (status : List (String × Bool))
    (timers : List (String × List SendTimer)) (k : Nat) (done : List Queue)
    (cum : List (String × Nat)) (ns : List String) (del : List Queue)
    (q x : Queue) (rest : List Queue)
    (h1 : is_sending_in_progress status q.config_name = false)
    (h2 : skipQueue env q = false)
    (h3 : ¬ SENDING_TIME_LIMIT
        ≤ (drainStep env timers k (cumInit cum q.config_name) ns q).cEnd) :
    sendLoop env status timers k done cum ns del (q :: x :: rest)
      = sendLoop env status
          (drainStep env timers k (cumInit cum q.config_name) ns q).timers
          (drainStep env timers k (cumInit cum q.config_name) ns q).k
          (drainDone done
              (drainStep env timers k (cumInit cum q.config_name) ns q).q2
            ++ [x])
          (drainStep env timers k (cumInit cum q.config_name) ns q).cum
          (drainStep env timers k (cumInit cum q.config_name) ns q).newStatus
          (del ++ [(drainStep env timers k (cumInit cum q.config_name) ns
            q).q2])
          rest := by
  simp [sendLoop, h1, h2, h3]

/-! ### C2 — busy configs are untouched by a drain tick -/

/-- Whether a queue's destination config is flagged in-progress in the
given `sending_status` map. -/
def busyIn (status : List (String × Bool)) (q : Queue) : Bool :=
  is_sending_in_progress status q.config_name

theorem filter_erase_of_neg {α : Type} [DecidableEq α] (p : α → Bool)
    (x : α) (hx : p x = false) (l : List α) :
    (l.erase x).filter p = l.filter p := by
  induction l with
  | nil => rfl
  | cons a l ih =>
      by_cases h : a = x
      · subst h
        rw [List.erase_cons_head]
        simp [List.filter_cons, hx]
      · rw [List.erase_cons_tail (by simp [h])]
        simp only [List.filter_cons]
        cases hp : p a <;> simp [hp, ih]

theorem filter_drainDone (p : Queue → Bool) (done : List Queue) (q2 : Queue)
    (hq2 : p q2 = false) :
    (drainDone done q2).filter p = done.filter p := by
  unfold drainDone
  by_cases h : q2 ∈ done <;>
    simp [h, List.filter_append, filter_erase_of_neg p q2 hq2, hq2]

theorem drainStep_q2_config (env : TickEnv)
    (timers : List (String × List SendTimer)) (k : Nat)
    (cum1 : List (String × Nat)) (ns : List String) (q : Queue) :
    (drainStep env timers k cum1 ns q).q2.config_name = q.config_name := rfl

theorem count_filter_of_pos {α : Type} [DecidableEq α] (p : α → Bool)
    (a : α) (ha : p a = true) (l : List α) :
    (l.filter p).count a = l.count a := by
  induction l with
  | nil => rfl
  | cons b l ih =>
      by_cases h : b = a
      · subst h
        simp [List.filter_cons, ha, ih]
      · cases hb : p b <;>
          simp [List.filter_cons, hb, ih, List.count_cons, h]

theorem sendLoop_busy_untouched (env : TickEnv)
    (status : List (String × Bool)) :
    ∀ (n : Nat) (todo : List Queue), todo.length ≤ n →
    ∀ (timers : List (String × List SendTimer)) (k : Nat)
      (done : List Queue) (cum : List (String × Nat)) (ns : List String)
      (del : List Queue),
    ((sendLoop env status timers k done cum ns del todo).queues.filter
        (busyIn status)
      = (done ++ todo).filter (busyIn status)) ∧
    (∀ d ∈ (sendLoop env status timers k done cum ns del todo).deleted,
      d ∈ del ∨ busyIn status d = false) := by
  intro n
  induction n with
  | zero =>
      intro todo hlen timers k done cum ns del
      have ht : todo = [] := List.eq_nil_of_length_eq_zero
        (Nat.le_zero.mp hlen)
      subst ht
      rw [sendLoop_nil]
      exact ⟨by simp, fun d hd => Or.inl hd⟩
  | succ n ih =>
      intro todo hlen timers k done cum ns del
      match todo with
      | [] =>
          rw [sendLoop_nil]
          exact ⟨by simp, fun d hd => Or.inl hd⟩
      | q :: rest =>
          have hrest : rest.length ≤ n := by
            simpa using Nat.succ_le_succ_iff.mp (by simpa using hlen)
          by_cases hbusy : is_sending_in_progress status q.config_name
          · rw [sendLoop_cons_busy env status timers k done cum ns del q rest
              hbusy]
            obtain ⟨ihq, ihd⟩ := ih rest hrest timers k (done ++ [q]) cum ns
              del
            exact ⟨by rw [ihq]; simp, ihd⟩
          · have hbusy' : is_sending_in_progress status q.config_name
                = false := by simpa using hbusy
            have hqbusy : busyIn status q = false := hbusy'
            by_cases hskip : skipQueue env q
            · rw [sendLoop_cons_skip env status timers k done cum ns del q
                rest hbusy' hskip]
              obtain ⟨ihq, ihd⟩ := ih rest hrest timers k (done ++ [q])
                (cumInit cum q.config_name) ns del
              exact ⟨by rw [ihq]; simp, ihd⟩
            · have hskip' : skipQueue env q = false := by simpa using hskip
              have hq2busy : busyIn status
                  (drainStep env timers k (cumInit cum q.config_name) ns
                    q).q2 = false := by
                unfold busyIn
                rw [drainStep_q2_config]
                exact hbusy'
              by_cases hlim : SENDING_TIME_LIMIT
                  ≤ (drainStep env timers k (cumInit cum q.config_name) ns
                    q).cEnd
              · rw [sendLoop_cons_drain_break env status timers k done cum ns
                  del q rest hbusy' hskip' hlim]
                refine ⟨?_, ?_⟩
                · simp [List.filter_append, List.filter_cons, hqbusy,
                    filter_drainDone (busyIn status) done _ hq2busy]
                · intro d hd
                  rcases List.mem_append.mp hd with h | h
                  · exact Or.inl h
                  · rw [List.mem_singleton.mp h]
                    exact Or.inr hq2busy
              · match rest with
                | [] =>
                    rw [sendLoop_cons_drain_last env status timers k done cum
                      ns del q hbusy' hskip' hlim]
                    refine ⟨?_, ?_⟩
                    · simp [List.filter_append, List.filter_cons, hqbusy,
                        filter_drainDone (busyIn status) done _ hq2busy]
                    · intro d hd
                      rcases List.mem_append.mp hd with h | h
                      · exact Or.inl h
                      · rw [List.mem_singleton.mp h]
                        exact Or.inr hq2busy
                | x :: rest' =>
                    rw [sendLoop_cons_drain_next env status timers k done cum
                      ns del q x rest' hbusy' hskip' hlim]
                    have hrest' : rest'.length ≤ n := by
                      simp at hlen
                      omega
                    obtain ⟨ihq, ihd⟩ := ih rest' hrest'
                      (drainStep env timers k (cumInit cum q.config_name) ns
                        q).timers
                      (drainStep env timers k (cumInit cum q.config_name) ns
                        q).k
                      (drainDone done
                          (drainStep env timers k (cumInit cum q.config_name)
                            ns q).q2 ++ [x])
                      (drainStep env timers k (cumInit cum q.config_name) ns
                        q).cum
                      (drainStep env timers k (cumInit cum q.config_name) ns
                        q).newStatus
                      (del ++ [(drainStep env timers k
                        (cumInit cum q.config_name) ns q).q2])
                    refine ⟨?_, ?_⟩
                    · rw [ihq]
                      simp [List.filter_append, List.filter_cons, hqbusy,
                        filter_drainDone (busyIn status) done _ hq2busy]
                    · intro d hd
                      rcases ihd d hd with h | h
                      · rcases List.mem_append.mp h with h' | h'
                        · exact Or.inl h'
                        · rw [List.mem_singleton.mp h']
                          exact Or.inr hq2busy
                      · exact Or.inr h

/-- C2.  For every drain tick, every queue whose config has
`sending_status` `in_progress == true` at the start of the tick (the loop
never mutates `sending_status`; the `new_sending_status` entries are
flushed only after the loop, so this is also the status at the start of
the queue's own iteration) is left completely untouched: the sublist of
busy-config queues in the registry — values, order and multiplicity — is
exactly preserved (so the queue is not populated and its
`min_id`/`max_id`/`open` fields are unchanged), and every queue deleted
from the registry and store during the tick belongs to a config that was
not busy. -/
theorem drain_tick_busy_configs_untouched (env : TickEnv) (st : AppState) :
    ((send_messages_from_queues env st).1.queues.filter
        (busyIn st.sending_status)
      = st.queues.filter (busyIn st.sending_status)) ∧
    (∀ q : Queue, busyIn st.sending_status q = true →
      (send_messages_from_queues env st).1.queues.count q
        = st.queues.count q) ∧
    (∀ d ∈ (send_messages_from_queues env st).2.1,
      busyIn st.sending_status d = false) := by
  obtain ⟨hq, hd⟩ := sendLoop_busy_untouched env st.sending_status
    st.queues.length st.queues le_rfl st.sending_timers st.rand_idx [] [] []
    []
  have hq' : (send_messages_from_queues env st).1.queues.filter
      (busyIn st.sending_status)
      = st.queues.filter (busyIn st.sending_status) := by
    show (sendLoop env st.sending_status st.sending_timers st.rand_idx
        [] [] [] [] st.queues).queues.filter (busyIn st.sending_status) = _
    rw [hq]
    rfl
  refine ⟨hq', ?_, ?_⟩
  · intro q hbusy
    have h1 := count_filter_of_pos (busyIn st.sending_status) q hbusy
      (send_messages_from_queues env st).1.queues
    have h2 := count_filter_of_pos (busyIn st.sending_status) q hbusy
      st.queues
    rw [← h1, ← h2, hq']
  · intro d hmem
    have : d ∈ (sendLoop env st.sending_status st.sending_timers st.rand_idx
        [] [] [] [] st.queues).deleted := hmem
    rcases hd d this with h | h
    · exact absurd h (List.not_mem_nil d)
    · exact h

def qBusyC2 : Queue :=
  { qid := 1, config_name := "busy", channel_id := "ch", min_id := 3,
    max_id := 5, isOpen := false, messages := [] }

def envC2 : TickEnv :=
  { fetch := fun _ _ _ => [], allowed := fun _ => true,
    trans := fun m => m.text, jit := fun _ => 5, channel_filter := "" }

def stC2 : AppState :=
  { queues := [qBusyC2], sending_status := [("busy", true)],
    sending_timers := [("busy", [])], rand_idx := 0 }

theorem drain_tick_busy_configs_untouched_witness :
    busyIn stC2.sending_status qBusyC2 = true ∧
    (send_messages_from_queues envC2 stC2).1.queues.count qBusyC2
      = stC2.queues.count qBusyC2 :=
  ⟨rfl, (drain_tick_busy_configs_untouched envC2 stC2).2.1 qBusyC2 rfl⟩

/-! ### C5 — the per-tick time budget is a hard cutoff -/

theorem sendLoop_break_extends (env : TickEnv)
    (status : List (String × Bool)) :
    ∀ (n : Nat) (todo : List Queue), todo.length ≤ n →
    ∀ (extra : List Queue) (timers : List (String × List SendTimer))
      (k : Nat) (done : List Queue) (cum : List (String × Nat))
      (ns : List String) (del : List Queue),
    (sendLoop env status timers k done cum ns del todo).brk = true →
    sendLoop env status timers k done cum ns del (todo ++ extra)
      = { sendLoop env status timers k done cum ns del todo with
          queues :=
            (sendLoop env status timers k done cum ns del todo).queues
              ++ extra } := by
  intro n
  induction n with
  | zero =>
      intro todo hlen extra timers k done cum ns del hbrk
      have ht : todo = [] := List.eq_nil_of_length_eq_zero
        (Nat.le_zero.mp hlen)
      subst ht
      rw [sendLoop_nil] at hbrk
      exact absurd hbrk (by simp)
  | succ n ih =>
      intro todo hlen extra timers k done cum ns del hbrk
      match todo with
      | [] =>
          rw [sendLoop_nil] at hbrk
          exact absurd hbrk (by simp)
      | q :: rest =>
          have hrest : rest.length ≤ n := by
            simpa using Nat.succ_le_succ_iff.mp (by simpa using hlen)
          by_cases hbusy : is_sending_in_progress status q.config_name
          · rw [sendLoop_cons_busy env status timers k done cum ns del q rest
              hbusy] at hbrk
            rw [show (q :: rest) ++ extra = q :: (rest ++ extra) from rfl,
              sendLoop_cons_busy env status timers k done cum ns del q
                (rest ++ extra) hbusy,
              sendLoop_cons_busy env status timers k done cum ns del q rest
                hbusy]
            exact ih rest hrest extra timers k (done ++ [q]) cum ns del hbrk
          · have hbusy' : is_sending_in_progress status q.config_name
                = false := by simpa using hbusy
            by_cases hskip : skipQueue env q
            · rw [sendLoop_cons_skip env status timers k done cum ns del q
                rest hbusy' hskip] at hbrk
              rw [show (q :: rest) ++ extra = q :: (rest ++ extra) from rfl,
                sendLoop_cons_skip env status timers k done cum ns del q
                  (rest ++ extra) hbusy' hskip,
                sendLoop_cons_skip env status timers k done cum ns del q rest
                  hbusy' hskip]
              exact ih rest hrest extra timers k (done ++ [q])
                (cumInit cum q.config_name) ns del hbrk
            · have hskip' : skipQueue env q = false := by simpa using hskip
              by_cases hlim : SENDING_TIME_LIMIT
                  ≤ (drainStep env timers k (cumInit cum q.config_name) ns
                    q).cEnd
              · rw [show (q :: rest) ++ extra = q :: (rest ++ extra) from rfl,
                  sendLoop_cons_drain_break env status timers k done cum ns
                    del q (rest ++ extra) hbusy' hskip' hlim,
                  sendLoop_cons_drain_break env status timers k done cum ns
                    del q rest hbusy' hskip' hlim]
                simp [List.append_assoc]
              · match rest with
                | [] =>
                    rw [sendLoop_cons_drain_last env status timers k done cum
                      ns del q hbusy' hskip' hlim] at hbrk
                    exact absurd hbrk (by simp)
                | x :: rest' =>
                    rw [sendLoop_cons_drain_next env status timers k done cum
                      ns del q x rest' hbusy' hskip' hlim] at hbrk
                    rw [show (q :: x :: rest') ++ extra
                        = q :: x :: (rest' ++ extra) from rfl,
                      sendLoop_cons_drain_next env status timers k done cum
                        ns del q x (rest' ++ extra) hbusy' hskip' hlim,
                      sendLoop_cons_drain_next env status timers k done cum
                        ns del q x rest' hbusy' hskip' hlim]
                    refine ih rest' ?_ extra _ _ _ _ _ _ hbrk
                    simp at hlen
                    omega

/-- C5.  When a drain tick ends through the time-budget break — the
cumulative fire offset of the config being drained reached
`SENDING_TIME_LIMIT`, which is exactly when `sendLoop` returns
`brk = true` — every queue sitting after the cutoff point is left
entirely untouched: running the same tick with any suffix `extra` of
further queues appended to the registry produces the identical state and
identical deletions, except that `extra` itself reappears verbatim at the
tail of the registry (no population, no deletion, no timers scheduled for
those queues; they stay for a following tick). -/
theorem drain_tick_time_budget (env : TickEnv) (st : AppState)
    (extra : List Queue)
    (h : (send_messages_from_queues env st).2.2 = true) :
    (send_messages_from_queues env
        { st with queues := st.queues ++ extra }).1
      = { (send_messages_from_queues env st).1 with
          queues := (send_messages_from_queues env st).1.queues ++ extra } ∧
    (send_messages_from_queues env
        { st with queues := st.queues ++ extra }).2.1
      = (send_messages_from_queues env st).2.1 ∧
    (send_messages_from_queues env
        { st with queues := st.queues ++ extra }).2.2 = true := by
  have hbrk : (sendLoop env st.sending_status st.sending_timers st.rand_idx
      [] [] [] [] st.queues).brk = true := h
  have hext := sendLoop_break_extends env st.sending_status st.queues.length
    st.queues le_rfl extra st.sending_timers st.rand_idx [] [] [] [] hbrk
  refine ⟨?_, ?_, ?_⟩
  all_goals simp only [send_messages_from_queues, hext]
  all_goals simp [hbrk]

def envC5 : TickEnv :=
  { fetch := fun _ _ _ =>
      (List.range 65).map (fun n => ⟨n + 1, none, "x", none⟩),
    allowed := fun _ => true, trans := fun m => m.text,
    jit := fun _ => 14, channel_filter := "" }

def stC5 : AppState :=
  { queues := [⟨1, "cfg", "chan", 1, 65, false, []⟩],
    sending_status := [("cfg", false)], sending_timers := [("cfg", [])],
    rand_idx := 0 }

def extraC5 : List Queue := [⟨2, "cfg", "chan2", 7, 9, false, []⟩]

set_option maxRecDepth 8192 in
theorem drain_tick_time_budget_witness :
    (send_messages_from_queues envC5 stC5).2.2 = true ∧
    ((send_messages_from_queues envC5
        { stC5 with queues := stC5.queues ++ extraC5 }).1
      = { (send_messages_from_queues envC5 stC5).1 with
          queues := (send_messages_from_queues envC5 stC5).1.queues
            ++ extraC5 } ∧
     (send_messages_from_queues envC5
        { stC5 with queues := stC5.queues ++ extraC5 }).2.1
      = (send_messages_from_queues envC5 stC5).2.1 ∧
     (send_messages_from_queues envC5
        { stC5 with queues := stC5.queues ++ extraC5 }).2.2 = true) :=
  ⟨rfl, drain_tick_time_budget envC5 stC5 extraC5 rfl⟩

end Forwardgram
